import Mathlib

/-!
Shallow embedding of `scripts/chroma-cli.py` (jikime-mem Chroma inspection CLI).

Python strings that are sliced/transformed character-wise (document contents)
are embedded as `List Char`; strings only compared or concatenated stay
`String`.  Each `print(...)` call of the script becomes one element of the
output line list (a single call may contain an embedded newline, as in the
source's `f"\n..."` strings).  `sys.exit(k)` and normal return become the
`exitCode` field of `CmdResult`; an uncaught Python exception becomes
`Except.error`.

The Chroma client library is an external collaborator (not part of this
repository).  Its read operations are modelled on the store data:
`peek limit` returns the first `limit` documents (none for a non-positive
limit), `count` returns the number of documents, `get(include=metadatas)`
returns all documents in store order, and `query` answers are supplied by an
oracle parameter, since embeddings are computed outside this program.
A per-collection environment failure of `get_collection`/`count` inside
`status` is modelled by the `countFails` flag.
-/

namespace ChromaCli

/-- Metadata mapping of a document: string keys to string values. -/
abbrev Meta := List (String × String)

/-- Embedding of Python `meta.get(key, default)`: first value bound to `key`,
or `default` when the key is absent. -/
def metaGet (m : Meta) (key dflt : String) : String :=
  match m.find? (fun p => p.1 = key) with
  | some p => p.2
  | none => dflt

/-- A stored document record: identifier, text content (character list) and
metadata. -/
structure Doc where
  id : String
  content : List Char
  meta : Meta
deriving DecidableEq, Repr

/-- A collection of the vector store.  `countFails` models an environment
failure of `client.get_collection(name)`/`collection.count()` when `status`
inspects this collection (the bare `except:` branch of `cmd_status`). -/
structure Collection where
  name : String
  docs : List Doc
  countFails : Bool := false
deriving DecidableEq, Repr

/-- The store: the list of collections, in `client.list_collections()` order. -/
abbrev Store := List Collection

/-- `COLLECTION_NAME = 'jm__jikime_mem'` of the script. -/
def COLLECTION_NAME : String := "jm__jikime_mem"

/-- `VECTOR_DB_DIR`: fixed path under the home directory; the home prefix is
abstracted to `~`. -/
def VECTOR_DB_DIR : String := "~/.jikime-mem/vector-db"

/-- Lookup of the fixed collection, as `client.get_collection(COLLECTION_NAME)`
inside the `get_collection` helper: `none` models the raised exception. -/
def findCollection (store : Store) : Option Collection :=
  store.find? (fun c => c.name = COLLECTION_NAME)

/-- Result of one command run: the printed lines and the process exit status. -/
structure CmdResult where
  lines : List String
  exitCode : Nat
deriving DecidableEq, Repr

/-- The two lines printed by the `get_collection` helper before `sys.exit(1)`.
The second line renders the exception text of the external client, which is
elided here. -/
def notFoundLines : List String :=
  ["❌ Collection 'jm__jikime_mem' not found", "   Error: "]

/-- `"=" * 50`. -/
def eqLine : String := String.mk (List.replicate 50 '=')

/-- The emoji chain `"📝" if doc_type == 'prompt' else "💬" if doc_type ==
'response' else "📄"` used by `list`, `search` and `types`. -/
def emojiOf (docType : String) : String :=
  if docType = "prompt" then "📝" else if docType = "response" then "💬" else "📄"

/-- The `doc_type` metadata value of a document, defaulting to `unknown`. -/
def docTypeOf (d : Doc) : String := metaGet d.meta "doc_type" "unknown"

/-- The `session_id` metadata value of a document, defaulting to `unknown`. -/
def sessionIdOf (d : Doc) : String := metaGet d.meta "session_id" "unknown"

/-- Replacement of newlines by spaces: `.replace('\n', ' ')` on a character
list (both pattern and replacement are single characters, so Python's
`str.replace` acts character-wise). -/
def nlToSpace (c : Char) : Char := if c = '\n' then ' ' else c

/-- Content preview of `cmd_list`/`cmd_search`: `doc[:limit].replace('\n',' ')`
plus `"..."` appended exactly when `len(doc) > limit`. -/
def previewChars (limit : Nat) (doc : List Char) : List Char :=
  let p := (doc.take limit).map nlToSpace
  if doc.length > limit then p ++ ['.', '.', '.'] else p

/-- Model of the external client's `collection.peek(limit=limit)`: the first
`limit` documents in store order; a non-positive limit yields no documents. -/
def peekModel (docs : List Doc) (limit : Int) : List Doc :=
  docs.take limit.toNat

/-- The documents `cmd_list` iterates over: none when the collection is empty
(the early `(no documents)` return), otherwise the peek of
`min(limit, count)`. -/
def listShownDocs (c : Collection) (limit : Int) : List Doc :=
  if c.docs.length = 0 then []
  else peekModel c.docs (min limit (c.docs.length : Int))

/-- The three output lines `cmd_list` prints for document `d` at zero-based
index `i`. -/
def listDocLines (i : Nat) (d : Doc) : List String :=
  let dt := docTypeOf d
  let sid := (sessionIdOf d).take 8
  ["\n" ++ emojiOf dt ++ " [" ++ toString (i + 1) ++ "] " ++ d.id,
   "   Type: " ++ dt ++ " | Session: " ++ sid ++ "...",
   "   Content: " ++ String.mk (previewChars 80 d.content)]

/-- `cmd_list(limit)`. -/
def cmdList (store : Store) (limit : Int) : CmdResult :=
  match findCollection store with
  | none => ⟨notFoundLines, 1⟩
  | some c =>
    let count := c.docs.length
    let limit2 := min limit (count : Int)
    let header := [eqLine,
      "📄 Documents (showing " ++ toString limit2 ++ " of " ++ toString count ++ ")",
      eqLine]
    if count = 0 then ⟨header ++ ["   (no documents)"], 0⟩
    else
      let docLines := (listShownDocs c limit).enum.foldr
        (fun p acc => listDocLines p.1 p.2 ++ acc) []
      ⟨header ++ docLines, 0⟩

/-- `cmd_status()`: lists every collection with its count, rendering
`(error)` for a collection whose inspection fails, and never exits
non-zero. -/
def cmdStatus (store : Store) : CmdResult :=
  let header := [eqLine, "📊 Chroma Status", eqLine,
    "📁 Data Directory: " ++ VECTOR_DB_DIR,
    "\n📚 Collections (" ++ toString store.length ++ "):"]
  let colLines := store.map (fun col =>
    if col.countFails then "   • " ++ col.name ++ ": (error)"
    else "   • " ++ col.name ++ ": " ++ toString col.docs.length ++ " documents")
  ⟨header ++ colLines, 0⟩

/-- Similarity conversion of `cmd_search`:
`similarity = max(0, 1 - (dist / 2)) * 100`, over exact rationals in place of
Python floats. -/
def similarity (dist : ℚ) : ℚ := max 0 (1 - dist / 2) * 100

/-- Model of the `{similarity:.1f}` float formatting: one decimal digit, via
rounding of `10 * x` (the exact binary-float rounding of the source is not
observable at this level). -/
def fmtPercent (x : ℚ) : String :=
  let n : Int := round (10 * x)
  toString (n / 10) ++ "." ++ toString (n % 10).natAbs

/-- One search hit as delivered by the external client: the document (id,
content, metadata zipped from the reply's parallel lists) and its cosine
distance. -/
abbrev SearchHit := Doc × ℚ

/-- Oracle answering `collection.query(query_texts=[q], n_results=n)`: the
external nearest-neighbour search, abstracted. -/
abbrev QueryFn := String → Int → List SearchHit

/-- The four output lines `cmd_search` prints for hit `h` at zero-based
index `i`. -/
def searchHitLines (i : Nat) (h : SearchHit) : List String :=
  let dt := docTypeOf h.1
  ["\n" ++ emojiOf dt ++ " [" ++ toString (i + 1) ++ "] " ++
     fmtPercent (similarity h.2) ++ "% match",
   "   ID: " ++ h.1.id,
   "   Type: " ++ dt,
   "   Content: " ++ String.mk (previewChars 100 h.1.content)]

/-- `cmd_search(query, limit)`. -/
def cmdSearch (store : Store) (qr : QueryFn) (query : String) (limit : Int) :
    CmdResult :=
  match findCollection store with
  | none => ⟨notFoundLines, 1⟩
  | some _ =>
    let header := [eqLine, "🔍 Search: \"" ++ query ++ "\"", eqLine]
    let hits := qr query limit
    if hits.isEmpty then ⟨header ++ ["   (no results)"], 0⟩
    else
      let hitLines := hits.enum.foldr (fun p acc => searchHitLines p.1 p.2 ++ acc) []
      ⟨header ++ hitLines, 0⟩

/-- One increment of a `collections.Counter`: bump the entry of `k`, or append
`(k, 1)` when `k` is new (Python dicts keep insertion order). -/
def counterAdd (c : List (String × Nat)) (k : String) : List (String × Nat) :=
  match c with
  | [] => [(k, 1)]
  | (k₁, n) :: rest =>
    if k₁ = k then (k₁, n + 1) :: rest else (k₁, n) :: counterAdd rest k

/-- The `Counter` built by iterating over a list of keys. -/
def counterOf (ks : List String) : List (String × Nat) :=
  ks.foldl counterAdd []

/-- Stable descending insertion by count: an element is placed after every
earlier element of count at least its own. -/
def insertDesc (x : String × Nat) : List (String × Nat) → List (String × Nat)
  | [] => [x]
  | y :: ys => if y.2 ≤ x.2 then x :: y :: ys else y :: insertDesc x ys

/-- Stable descending sort by count; `Counter.most_common()` is
`sorted(items, key=count, reverse=True)`, a stable descending sort, whose
output this insertion sort reproduces. -/
def sortDesc (l : List (String × Nat)) : List (String × Nat) :=
  l.foldr insertDesc []

/-- The `By Type` tally printed by `cmd_types`: counts of `doc_type` values in
descending frequency order (`most_common()`). -/
def typeReport (docs : List Doc) : List (String × Nat) :=
  sortDesc (counterOf (docs.map docTypeOf))

/-- The full session tally of `cmd_types` in descending frequency order. -/
def sessionTally (docs : List Doc) : List (String × Nat) :=
  sortDesc (counterOf (docs.map sessionIdOf))

/-- The `By Session` entries actually printed: `most_common(5)`, the top five
sessions. -/
def sessionReport (docs : List Doc) : List (String × Nat) :=
  (sessionTally docs).take 5

/-- Session id as displayed by `cmd_types`: visually truncated after 12
characters. -/
def shortSession (s : String) : String :=
  if s.length > 12 then s.take 12 ++ "..." else s

/-- `cmd_types()`. -/
def cmdTypes (store : Store) : CmdResult :=
  match findCollection store with
  | none => ⟨notFoundLines, 1⟩
  | some c =>
    let count := c.docs.length
    let header := [eqLine, "📈 Document Types Statistics", eqLine]
    if count = 0 then ⟨header ++ ["   (no documents)"], 0⟩
    else
      let typeLines := (typeReport c.docs).map (fun p =>
        "   " ++ emojiOf p.1 ++ " " ++ p.1 ++ ": " ++ toString p.2)
      let sessionLines := (sessionReport c.docs).map (fun p =>
        "   📁 " ++ shortSession p.1 ++ ": " ++ toString p.2 ++ " documents")
      ⟨header ++ ["\n📊 By Type (Total: " ++ toString count ++ "):"] ++ typeLines
        ++ ["\n📊 By Session (Top 5):"] ++ sessionLines, 0⟩

/-- Validity of the digit tail of a Python integer literal: digits, with
single underscores allowed only between digits. -/
def digitsRest : List Char → Bool
  | [] => true
  | '_' :: c :: cs => c.isDigit && digitsRest (c :: cs)
  | c :: cs => c.isDigit && digitsRest cs

/-- Numeric value of a digit run, skipping grouping underscores. -/
def digitsVal (cs : List Char) : Nat :=
  cs.foldl (fun a c => if c = '_' then a else a * 10 + (c.toNat - '0'.toNat)) 0

/-- Surrounding-whitespace strip of `int(str)`. -/
def stripChars (s : List Char) : List Char :=
  (((s.dropWhile Char.isWhitespace).reverse.dropWhile Char.isWhitespace).reverse)

/-- Embedding of Python `int(s)` in base 10: optional surrounding whitespace,
optional sign, then a non-empty digit run with single underscores between
digits; `none` models the raised `ValueError`. -/
def pyIntCore (s : List Char) : Option Int :=
  let t := stripChars s
  let su : Int × List Char :=
    match t with
    | '+' :: r => (1, r)
    | '-' :: r => (-1, r)
    | r => (1, r)
  match su.2 with
  | [] => none
  | c :: cs =>
    if c.isDigit && digitsRest cs then some (su.1 * digitsVal (c :: cs)) else none

/-- `int()` on a `String` argument. -/
def pyInt (s : String) : Option Int := pyIntCore s.data

/-- The module docstring printed as usage text (`print(__doc__)`). -/
def usageDoc : String :=
  "\nChroma CLI - jikime-mem Chroma 데이터 확인 도구\n\n사용법:\n  python scripts/chroma-cli.py status      # 컬렉션 상태 확인\n  python scripts/chroma-cli.py list [n]    # 문서 목록 (기본 10개)\n  python scripts/chroma-cli.py search \"쿼리\"  # 시맨틱 검색\n  python scripts/chroma-cli.py types       # 문서 타입별 통계\n"

/-- The usage line of `search` invoked without a query. -/
def searchUsageLine : String := "Usage: chroma-cli.py search \"query\""

/-- The Python exception a run may die with: `int()` raising `ValueError` is
the only uncaught exception in `main`. -/
inductive PyErr where
  | valueError
deriving DecidableEq, Repr

/-- `main()`: dispatch on `sys.argv[1:]` (the `argv` parameter).  Arguments
past the ones read are ignored, as in the source. -/
def mainRun (store : Store) (qr : QueryFn) (argv : List String) :
    Except PyErr CmdResult :=
  match argv with
  | [] => .ok ⟨[usageDoc], 0⟩
  | cmd :: rest =>
    if cmd = "status" then .ok (cmdStatus store)
    else if cmd = "list" then
      match rest with
      | [] => .ok (cmdList store 10)
      | s :: _ =>
        match pyInt s with
        | some n => .ok (cmdList store n)
        | none => .error .valueError
    else if cmd = "search" then
      match rest with
      | [] => .ok ⟨[searchUsageLine], 1⟩
      | q :: rest₂ =>
        match rest₂ with
        | [] => .ok (cmdSearch store qr q 10)
        | s :: _ =>
          match pyInt s with
          | some n => .ok (cmdSearch store qr q n)
          | none => .error .valueError
    else if cmd = "types" then .ok (cmdTypes store)
    else .ok ⟨["Unknown command: " ++ cmd, usageDoc], 1⟩

/-- The operations the Chroma client exposes; the reads issued by this tool
plus the writes it could have issued but never does. -/
inductive ClientOp where
  | listCollections
  | getCollectionOp (name : String)
  | countOp (name : String)
  | peekOp (name : String) (limit : Int)
  | queryOp (name : String) (q : String) (n : Int)
  | getMetadatas (name : String)
  | createCollectionOp (name : String)
  | addOp (name : String) (d : Doc)
  | deleteOp (name : String) (id : String)
  | deleteCollectionOp (name : String)
deriving DecidableEq, Repr

/-- Whether an operation mutates the store. -/
def ClientOp.isWrite : ClientOp → Bool
  | .createCollectionOp _ => true
  | .addOp _ _ => true
  | .deleteOp _ _ => true
  | .deleteCollectionOp _ => true
  | _ => false

/-- Apply a document-level edit to the named collection. -/
def modifyCollection (store : Store) (name : String)
    (f : List Doc → List Doc) : Store :=
  store.map (fun c => if c.name = name then { c with docs := f c.docs } else c)

/-- Store semantics of one client operation: reads leave the store unchanged,
writes mutate it. -/
def applyOp (store : Store) : ClientOp → Store
  | .listCollections => store
  | .getCollectionOp _ => store
  | .countOp _ => store
  | .peekOp _ _ => store
  | .queryOp _ _ _ => store
  | .getMetadatas _ => store
  | .createCollectionOp name => store ++ [⟨name, [], false⟩]
  | .addOp name d => modifyCollection store name (fun ds => ds ++ [d])
  | .deleteOp name id => modifyCollection store name (fun ds => ds.filter (fun d => d.id ≠ id))
  | .deleteCollectionOp name => store.filter (fun c => c.name ≠ name)

/-- Run a trace of client operations against the store. -/
def applyOps (store : Store) (ops : List ClientOp) : Store :=
  ops.foldl applyOp store

/-- Trace of `cmd_status`: list the collections, then fetch and count each. -/
def statusOps (store : Store) : List ClientOp :=
  .listCollections ::
    (store.map (fun c => [ClientOp.getCollectionOp c.name, ClientOp.countOp c.name])).flatten

/-- Trace of `cmd_list` (after the not-found exit only the fetch happened;
the empty collection returns before `peek`). -/
def listOps (store : Store) (limit : Int) : List ClientOp :=
  match findCollection store with
  | none => [.getCollectionOp COLLECTION_NAME]
  | some c =>
    if c.docs.length = 0 then [.getCollectionOp COLLECTION_NAME, .countOp c.name]
    else [.getCollectionOp COLLECTION_NAME, .countOp c.name,
          .peekOp c.name (min limit (c.docs.length : Int))]

/-- Trace of `cmd_search`. -/
def searchOps (store : Store) (q : String) (limit : Int) : List ClientOp :=
  match findCollection store with
  | none => [.getCollectionOp COLLECTION_NAME]
  | some c => [.getCollectionOp COLLECTION_NAME, .queryOp c.name q limit]

/-- Trace of `cmd_types` (the empty collection returns before `get`). -/
def typesOps (store : Store) : List ClientOp :=
  match findCollection store with
  | none => [.getCollectionOp COLLECTION_NAME]
  | some c =>
    if c.docs.length = 0 then [.getCollectionOp COLLECTION_NAME, .countOp c.name]
    else [.getCollectionOp COLLECTION_NAME, .countOp c.name, .getMetadatas c.name]

/-- Trace of client operations a `main` invocation issues (empty when `main`
exits before reaching a handler, including the uncaught `int()` error). -/
def mainOps (store : Store) (argv : List String) : List ClientOp :=
  match argv with
  | [] => []
  | cmd :: rest =>
    if cmd = "status" then statusOps store
    else if cmd = "list" then
      match rest with
      | [] => listOps store 10
      | s :: _ =>
        match pyInt s with
        | some n => listOps store n
        | none => []
    else if cmd = "search" then
      match rest with
      | [] => []
      | q :: rest₂ =>
        match rest₂ with
        | [] => searchOps store q 10
        | s :: _ =>
          match pyInt s with
          | some n => searchOps store q n
          | none => []
    else if cmd = "types" then typesOps store
    else []

/-! ### Concrete sample data used by witnesses and counterexamples -/

/-- A sample document of the fixed collection. -/
def sampleDoc : Doc :=
  ⟨"doc-1", ['h', 'i'], [("doc_type", "prompt"), ("session_id", "sess-1234")]⟩

/-- A sample instance of the fixed collection, holding one document. -/
def sampleCollection : Collection := ⟨COLLECTION_NAME, [sampleDoc], false⟩

/-- A collection with a name different from the fixed one. -/
def otherCollection : Collection := ⟨"other", [], false⟩

/-- A collection whose inspection inside `status` fails. -/
def failingCollection : Collection := ⟨"broken", [], true⟩

/-- The spec scenario for `types`: three documents with `doc_type` values
`prompt, response, prompt`. -/
def scenarioDocs : List Doc :=
  [⟨"d1", [], [("doc_type", "prompt"), ("session_id", "s1")]⟩,
   ⟨"d2", [], [("doc_type", "response"), ("session_id", "s1")]⟩,
   ⟨"d3", [], [("doc_type", "prompt"), ("session_id", "s2")]⟩]

/-- Six documents with six distinct `session_id` values. -/
def sixSessionDocs : List Doc :=
  [⟨"e1", [], [("doc_type", "prompt"), ("session_id", "a1")]⟩,
   ⟨"e2", [], [("doc_type", "prompt"), ("session_id", "a2")]⟩,
   ⟨"e3", [], [("doc_type", "prompt"), ("session_id", "a3")]⟩,
   ⟨"e4", [], [("doc_type", "prompt"), ("session_id", "a4")]⟩,
   ⟨"e5", [], [("doc_type", "prompt"), ("session_id", "a5")]⟩,
   ⟨"e6", [], [("doc_type", "prompt"), ("session_id", "a6")]⟩]

/-! ### Counter and sort lemmas -/

/-- Count held by a counter for key `k` (0 when absent; first binding wins,
as in `List.find?`). -/
def lookupCount : List (String × Nat) → String → Nat
  | [], _ => 0
  | p :: rest, k => if p.1 = k then p.2 else lookupCount rest k

theorem lookupCount_counterAdd (c : List (String × Nat)) (k k₁ : String) :
    lookupCount (counterAdd c k) k₁ =
      lookupCount c k₁ + if k₁ = k then 1 else 0 := by
  induction c with
  | nil =>
    by_cases h : k = k₁
    · subst h; simp [counterAdd, lookupCount]
    · simp [counterAdd, lookupCount, h, Ne.symm h]
  | cons p rest ih =>
    obtain ⟨k₂, n⟩ := p
    by_cases h₂ : k₂ = k
    · subst h₂
      by_cases h₁ : k₂ = k₁
      · subst h₁; simp [counterAdd, lookupCount]
      · simp [counterAdd, lookupCount, h₁, Ne.symm h₁]
    · by_cases h₁ : k₂ = k₁
      · subst h₁; simp [counterAdd, lookupCount, h₂, Ne.symm h₂]
      · simp [counterAdd, lookupCount, h₂, h₁, ih]

theorem mem_of_lookupCount (c : List (String × Nat)) (k : String)
    (h : k ∈ c.map Prod.fst) : (k, lookupCount c k) ∈ c := by
  induction c with
  | nil => simp at h
  | cons p rest ih =>
    obtain ⟨k₂, n⟩ := p
    by_cases h₁ : k₂ = k
    · subst h₁
      simp [lookupCount]
    · have hr : k ∈ rest.map Prod.fst := by
        rcases List.mem_map.mp h with ⟨q, hq, hqk⟩
        rcases List.mem_cons.mp hq with rfl | hq₂
        · exact absurd hqk h₁
        · exact List.mem_map.mpr ⟨q, hq₂, hqk⟩
      have hL : lookupCount ((k₂, n) :: rest) k = lookupCount rest k := by
        simp [lookupCount, h₁]
      rw [hL]
      exact List.mem_cons_of_mem _ (ih hr)

theorem mem_keys_counterAdd (c : List (String × Nat)) (k k₁ : String) :
    k₁ ∈ (counterAdd c k).map Prod.fst ↔ k₁ ∈ c.map Prod.fst ∨ k₁ = k := by
  induction c with
  | nil => simp [counterAdd]
  | cons p rest ih =>
    obtain ⟨k₂, n⟩ := p
    by_cases h₂ : k₂ = k
    · subst h₂
      by_cases h₁ : k₁ = k₂ <;> simp [counterAdd, h₁]
    · simp [counterAdd, h₂, ih, or_assoc]

theorem mem_keys_foldl (ks : List String) (c : List (String × Nat)) (k : String) :
    k ∈ (ks.foldl counterAdd c).map Prod.fst ↔ k ∈ c.map Prod.fst ∨ k ∈ ks := by
  induction ks generalizing c with
  | nil => simp
  | cons k₂ rest ih =>
    rw [List.foldl_cons, ih, mem_keys_counterAdd]
    constructor
    · rintro (⟨h | h⟩ | h)
      · exact Or.inl h
      · exact Or.inr (h ▸ List.mem_cons_self k₂ rest)
      · exact Or.inr (List.mem_cons_of_mem _ h)
    · rintro (h | h)
      · exact Or.inl (Or.inl h)
      · rcases List.mem_cons.mp h with rfl | h₂
        · exact Or.inl (Or.inr rfl)
        · exact Or.inr h₂

theorem lookupCount_foldl (ks : List String) (c : List (String × Nat)) (k : String) :
    lookupCount (ks.foldl counterAdd c) k = lookupCount c k + ks.count k := by
  induction ks generalizing c with
  | nil => simp [lookupCount]
  | cons k₂ rest ih =>
    rw [List.foldl_cons, ih, lookupCount_counterAdd, List.count_cons]
    by_cases h : k = k₂
    · simp [h]
      omega
    · simp [h]
      exact Ne.symm h

theorem counterOf_mem_count (ks : List String) (k : String) (h : k ∈ ks) :
    (k, ks.count k) ∈ counterOf ks := by
  have hk : k ∈ (counterOf ks).map Prod.fst := by
    rw [counterOf, mem_keys_foldl]
    exact Or.inr h
  have hl : lookupCount (counterOf ks) k = ks.count k := by
    rw [counterOf, lookupCount_foldl]
    simp [lookupCount]
  simpa [hl] using mem_of_lookupCount _ _ hk

/-- Sum of the counts of a counter. -/
def sumCounts (c : List (String × Nat)) : Nat := (c.map Prod.snd).sum

theorem sumCounts_counterAdd (c : List (String × Nat)) (k : String) :
    sumCounts (counterAdd c k) = sumCounts c + 1 := by
  induction c with
  | nil => simp [counterAdd, sumCounts]
  | cons p rest ih =>
    obtain ⟨k₂, n⟩ := p
    by_cases h : k₂ = k <;>
      simp only [counterAdd, h, if_true, if_false, sumCounts, List.map_cons,
        List.sum_cons] at ih ⊢ <;> omega

theorem sumCounts_foldl (ks : List String) (c : List (String × Nat)) :
    sumCounts (ks.foldl counterAdd c) = sumCounts c + ks.length := by
  induction ks generalizing c with
  | nil => simp
  | cons k rest ih =>
    rw [List.foldl_cons, ih, sumCounts_counterAdd]
    simp
    omega

theorem sumCounts_counterOf (ks : List String) :
    sumCounts (counterOf ks) = ks.length := by
  simpa [sumCounts] using sumCounts_foldl ks []

theorem insertDesc_perm (x : String × Nat) (l : List (String × Nat)) :
    List.Perm (insertDesc x l) (x :: l) := by
  induction l with
  | nil => rfl
  | cons y ys ih =>
    rw [insertDesc]
    split
    · rfl
    · exact (List.Perm.cons y ih).trans (List.Perm.swap x y ys)

theorem sortDesc_perm (l : List (String × Nat)) : List.Perm (sortDesc l) l := by
  induction l with
  | nil => rfl
  | cons x xs ih =>
    exact (insertDesc_perm x (sortDesc xs)).trans (ih.cons x)

theorem mem_insertDesc (x z : String × Nat) (l : List (String × Nat)) :
    z ∈ insertDesc x l ↔ z = x ∨ z ∈ l := by
  rw [(insertDesc_perm x l).mem_iff]
  simp

theorem insertDesc_sorted (x : String × Nat) (l : List (String × Nat))
    (h : l.Pairwise (fun a b => b.2 ≤ a.2)) :
    (insertDesc x l).Pairwise (fun a b => b.2 ≤ a.2) := by
  induction l with
  | nil => simp [insertDesc]
  | cons y ys ih =>
    rw [List.pairwise_cons] at h
    rw [insertDesc]
    split
    · rename_i hy
      refine List.pairwise_cons.mpr ⟨?_, List.pairwise_cons.mpr h⟩
      intro z hz
      rcases List.mem_cons.mp hz with rfl | hz
      · exact hy
      · exact (h.1 z hz).trans hy
    · rename_i hy
      refine List.pairwise_cons.mpr ⟨?_, ih h.2⟩
      intro z hz
      rcases (mem_insertDesc x z ys).mp hz with rfl | hz
      · omega
      · exact h.1 z hz

theorem sortDesc_sorted (l : List (String × Nat)) :
    (sortDesc l).Pairwise (fun a b => b.2 ≤ a.2) := by
  induction l with
  | nil => simp [sortDesc]
  | cons x xs ih => exact insertDesc_sorted x (sortDesc xs) ih

theorem sumCounts_sortDesc (l : List (String × Nat)) :
    sumCounts (sortDesc l) = sumCounts l :=
  List.Perm.sum_eq ((sortDesc_perm l).map Prod.snd)

/-! ### Claim theorems -/

/-- C1, counterexample: on a store without the fixed collection, `status`
exits with code 0, not 1 — `cmd_status` never calls the `get_collection`
helper, so the absence of the fixed collection is not fatal for it. -/
theorem status_missing_collection_cex :
    findCollection [] = none ∧
      (cmdStatus []).exitCode = 0 ∧ (cmdStatus []).exitCode ≠ 1 :=
  ⟨rfl, rfl, by decide⟩

/-- C1, amended: when the fixed collection is absent, `list`, `search` and
`types` print the not-found message and exit with status 1; `status` never
looks the fixed collection up and exits with status 0 regardless. -/
theorem missing_collection_fatal (store : Store) (qr : QueryFn) (q : String)
    (n : Int) (h : findCollection store = none) :
    cmdList store n = ⟨notFoundLines, 1⟩ ∧
    cmdSearch store qr q n = ⟨notFoundLines, 1⟩ ∧
    cmdTypes store = ⟨notFoundLines, 1⟩ ∧
    (cmdStatus store).exitCode = 0 := by
  refine ⟨?_, ?_, ?_, rfl⟩ <;> simp [cmdList, cmdSearch, cmdTypes, h]

/-- C1, witness at a store holding only a differently-named collection. -/
theorem missing_collection_fatal_witness :
    cmdList [otherCollection] 3 = ⟨notFoundLines, 1⟩ ∧
      cmdTypes [otherCollection] = ⟨notFoundLines, 1⟩ :=
  have h := missing_collection_fatal [otherCollection] (fun _ _ => []) "q" 3
    (by decide)
  ⟨h.1, h.2.2.1⟩

/-- C2, counterexample: with a one-document collection and `n = -3`, `list`
displays 0 documents, not `min(n, count) = -3` of them — a negative number of
displayed documents is impossible. -/
theorem list_negative_count_cex :
    ((listShownDocs sampleCollection (-3)).length : Int) ≠
      min (-3) (sampleCollection.docs.length : Int) := by decide

/-- C2, amended: for every integer `n`, `list n` on the present collection
displays exactly `max 0 (min n count)` documents (the `min` of the source
clamped to zero, non-positive fetch limits returning nothing) and completes
with exit status 0 instead of raising. -/
theorem list_shown_count (store : Store) (c : Collection) (n : Int)
    (h : findCollection store = some c) :
    ((listShownDocs c n).length : Int) = max 0 (min n (c.docs.length : Int)) ∧
    (cmdList store n).exitCode = 0 := by
  constructor
  · unfold listShownDocs peekModel
    split
    · rename_i h₀
      rw [h₀]
      simp
    · rename_i h₀
      rw [List.length_take]
      have hle : (min n (c.docs.length : Int)).toNat ≤ c.docs.length := by
        omega
      rw [Nat.min_eq_left hle]
      omega
  · by_cases h₀ : c.docs.length = 0 <;> simp [cmdList, h, h₀]

/-- C2, witness at the one-document sample collection with `n = 5`. -/
theorem list_shown_count_witness :
    ((listShownDocs sampleCollection 5).length : Int) =
        max 0 (min 5 (sampleCollection.docs.length : Int)) ∧
      (cmdList [sampleCollection] 5).exitCode = 0 :=
  list_shown_count [sampleCollection] sampleCollection 5 (by decide)

/-- C3, counterexample: the content `a\nb` is under both limits yet is not
printed unmodified — the preview replaces its newline by a space. -/
theorem preview_newline_cex :
    (['a', '\n', 'b'] : List Char).length ≤ 80 ∧
      previewChars 80 ['a', '\n', 'b'] ≠ ['a', '\n', 'b'] := by decide

/-- C3, amended: at the `list` limit 80 and the `search` limit 100, a content
longer than the limit yields a preview of exactly `limit + 3` characters
ending in `...`, and a content at most the limit yields the content with each
newline replaced by a space (otherwise unmodified). -/
theorem preview_truncation (limit : Nat) (doc : List Char)
    (_hl : limit = 80 ∨ limit = 100) :
    (doc.length > limit →
      (previewChars limit doc).length = limit + 3 ∧
      ['.', '.', '.'] <:+ previewChars limit doc) ∧
    (doc.length ≤ limit → previewChars limit doc = doc.map nlToSpace) := by
  constructor
  · intro h
    unfold previewChars
    rw [if_pos h]
    constructor
    · rw [List.length_append, List.length_map, List.length_take,
        Nat.min_eq_left (Nat.le_of_lt h)]
      rfl
    · exact ⟨_, rfl⟩
  · intro h
    unfold previewChars
    rw [if_neg (by omega), List.take_of_length_le h]

/-- C3, witness: an 81-character content previews to 83 characters at limit
80, and a short content is reproduced as-is. -/
theorem preview_truncation_witness :
    (previewChars 80 (List.replicate 81 'a')).length = 83 ∧
      previewChars 100 ['h', 'i'] = ['h', 'i'] := by
  constructor
  · exact ((preview_truncation 80 (List.replicate 81 'a') (Or.inl rfl)).1
      (by simp)).1
  · have h := (preview_truncation 100 ['h', 'i'] (Or.inr rfl)).2 (by simp)
    simpa [nlToSpace] using h

/-- C4: the similarity conversion of `search` equals
`max(0, 1 - d/2) * 100`, is antitone in the distance, maps distance 0 to
100%, maps every distance at least 2 to 0%, and is never negative. -/
theorem search_similarity_spec :
    (∀ d : ℚ, similarity d = max 0 (1 - d / 2) * 100) ∧
    (∀ d₁ d₂ : ℚ, d₁ ≤ d₂ → similarity d₂ ≤ similarity d₁) ∧
    similarity 0 = 100 ∧
    (∀ d : ℚ, 2 ≤ d → similarity d = 0) ∧
    (∀ d : ℚ, 0 ≤ similarity d) := by
  refine ⟨fun d => rfl, fun d₁ d₂ h => ?_, by norm_num [similarity],
    fun d h => ?_, fun d => ?_⟩
  · unfold similarity
    apply mul_le_mul_of_nonneg_right _ (by norm_num)
    exact max_le_max le_rfl (by linarith)
  · unfold similarity
    rw [max_eq_left (by linarith), zero_mul]
  · exact mul_nonneg (le_max_left _ _) (by norm_num)

/-- C4, witness: antitonicity, clamping and non-negativity at concrete
distances. -/
theorem search_similarity_spec_witness :
    similarity 1 ≤ similarity (1 / 2) ∧ similarity 3 = 0 ∧
      (0 : ℚ) ≤ similarity (3 / 2) :=
  ⟨search_similarity_spec.2.1 (1 / 2) 1 (by norm_num),
   search_similarity_spec.2.2.2.1 3 (by norm_num),
   search_similarity_spec.2.2.2.2 (3 / 2)⟩

/-- C8: `status` always exits with code 0, every collection of the store gets
its own output line (a failing one does not stop the loop), and a collection
whose inspection fails is rendered as `(error)`. -/
theorem status_error_nonfatal (store : Store) :
    (cmdStatus store).exitCode = 0 ∧
    (cmdStatus store).lines.length = 5 + store.length ∧
    ∀ col ∈ store, col.countFails = true →
      ("   • " ++ col.name ++ ": (error)") ∈ (cmdStatus store).lines := by
  refine ⟨rfl, ?_, ?_⟩
  · simp [cmdStatus]
    omega
  · intro col hmem hfail
    have : ("   • " ++ col.name ++ ": (error)") =
        (if col.countFails then "   • " ++ col.name ++ ": (error)"
         else "   • " ++ col.name ++ ": " ++ toString col.docs.length
           ++ " documents") := by
      rw [hfail]
      rfl
    rw [this]
    exact List.mem_append_right _ (List.mem_map_of_mem _ hmem)

/-- C8, witness: a two-collection store whose first collection fails gets an
`(error)` line while the run exits 0. -/
theorem status_error_nonfatal_witness :
    (cmdStatus [failingCollection, otherCollection]).exitCode = 0 ∧
      ("   • " ++ failingCollection.name ++ ": (error)") ∈
        (cmdStatus [failingCollection, otherCollection]).lines :=
  ⟨(status_error_nonfatal [failingCollection, otherCollection]).1,
   (status_error_nonfatal [failingCollection, otherCollection]).2.2
     failingCollection (by decide) rfl⟩

/-- C9: `search` without a query prints the usage line and exits 1; an
unknown command prints the error line plus the usage text and exits 1; no
arguments prints the usage text and exits 0. -/
theorem main_usage_errors :
    (∀ store : Store, ∀ qr : QueryFn,
      mainRun store qr ["search"] = .ok ⟨[searchUsageLine], 1⟩) ∧
    (∀ store : Store, ∀ qr : QueryFn, ∀ cmd : String, ∀ rest : List String,
      cmd ≠ "status" → cmd ≠ "list" → cmd ≠ "search" → cmd ≠ "types" →
      mainRun store qr (cmd :: rest) =
        .ok ⟨["Unknown command: " ++ cmd, usageDoc], 1⟩) ∧
    (∀ store : Store, ∀ qr : QueryFn,
      mainRun store qr [] = .ok ⟨[usageDoc], 0⟩) := by
  refine ⟨fun store qr => rfl, fun store qr cmd rest h₁ h₂ h₃ h₄ => ?_,
    fun store qr => rfl⟩
  simp [mainRun, h₁, h₂, h₃, h₄]

/-- C9, witness: the unknown command `frobnicate`. -/
theorem main_usage_errors_witness :
    mainRun [] (fun _ _ => []) ["frobnicate"] =
      .ok ⟨["Unknown command: " ++ "frobnicate", usageDoc], 1⟩ :=
  main_usage_errors.2.1 [] (fun _ _ => []) "frobnicate" []
    (by decide) (by decide) (by decide) (by decide)

/-- C10: a count argument `int()` cannot parse makes `main` die with an
uncaught `ValueError` before the `list`/`search` handler runs — no usage
message, no inline error, no output at all. -/
theorem bad_count_raises_value_error (store : Store) (qr : QueryFn)
    (s : String) (rest : List String) (q : String) (h : pyInt s = none) :
    mainRun store qr ("list" :: s :: rest) = .error .valueError ∧
    mainRun store qr ("search" :: q :: s :: rest) = .error .valueError := by
  constructor <;> simp [mainRun, h]

/-- C5, counterexample: six documents with six distinct sessions — `types`
prints only the top five sessions, whose counts sum to 5, not to the
collection total 6. -/
theorem session_report_cex :
    ((sessionReport sixSessionDocs).map Prod.snd).sum ≠ sixSessionDocs.length := by
  decide

/-- C5, amended: the reported `doc_type` counts sum to the total document
count, and so does the full `session_id` tally; but only the five most common
sessions are printed, so the printed session counts sum to the total exactly
when the tally has at most five entries. -/
theorem types_tally_sums (docs : List Doc) :
    ((typeReport docs).map Prod.snd).sum = docs.length ∧
    ((sessionTally docs).map Prod.snd).sum = docs.length ∧
    ((sessionTally docs).length ≤ 5 →
      ((sessionReport docs).map Prod.snd).sum = docs.length) := by
  refine ⟨?_, ?_, ?_⟩
  · show sumCounts (typeReport docs) = docs.length
    rw [typeReport, sumCounts_sortDesc, sumCounts_counterOf, List.length_map]
  · show sumCounts (sessionTally docs) = docs.length
    rw [sessionTally, sumCounts_sortDesc, sumCounts_counterOf, List.length_map]
  · intro h5
    show sumCounts (sessionReport docs) = docs.length
    rw [sessionReport, List.take_of_length_le h5, sessionTally,
      sumCounts_sortDesc, sumCounts_counterOf, List.length_map]

/-- C5, witness at the three-document scenario collection (two sessions, so
the printed session counts do sum to the total there). -/
theorem types_tally_sums_witness :
    ((typeReport scenarioDocs).map Prod.snd).sum = scenarioDocs.length ∧
      ((sessionReport scenarioDocs).map Prod.snd).sum = scenarioDocs.length :=
  ⟨(types_tally_sums scenarioDocs).1,
   (types_tally_sums scenarioDocs).2.2 (by decide)⟩

/-- C6: `types` reports, for every distinct `doc_type` value, the number of
documents carrying it, in descending order of frequency; on the three-document
scenario `prompt, response, prompt` the report is exactly
`prompt: 2, response: 1`. -/
theorem types_by_type_counts :
    (∀ docs : List Doc, ∀ v ∈ docs.map docTypeOf,
      (v, (docs.map docTypeOf).count v) ∈ typeReport docs) ∧
    (∀ docs : List Doc, (typeReport docs).Pairwise (fun a b => b.2 ≤ a.2)) ∧
    typeReport scenarioDocs = [("prompt", 2), ("response", 1)] := by
  refine ⟨?_, ?_, by decide⟩
  · intro docs v hv
    rw [typeReport, (sortDesc_perm _).mem_iff]
    exact counterOf_mem_count _ v hv
  · intro docs
    exact sortDesc_sorted _

/-- C6, witness: the `prompt` entry of the scenario report. -/
theorem types_by_type_counts_witness :
    ("prompt", (scenarioDocs.map docTypeOf).count "prompt") ∈
      typeReport scenarioDocs :=
  types_by_type_counts.1 scenarioDocs "prompt" (by decide)

theorem applyOp_of_read (s : Store) (op : ClientOp) (h : op.isWrite = false) :
    applyOp s op = s := by
  cases op <;> simp_all [ClientOp.isWrite, applyOp]

theorem applyOps_of_reads (s : Store) (ops : List ClientOp)
    (h : ∀ op ∈ ops, op.isWrite = false) : applyOps s ops = s := by
  induction ops generalizing s with
  | nil => rfl
  | cons op rest ih =>
    show List.foldl applyOp (applyOp s op) rest = s
    rw [applyOp_of_read s op (h op (List.mem_cons_self op rest))]
    exact ih s (fun o ho => h o (List.mem_cons_of_mem _ ho))

theorem statusOps_reads (store : Store) :
    ∀ op ∈ statusOps store, op.isWrite = false := by
  intro op hop
  rw [statusOps] at hop
  rcases List.mem_cons.mp hop with rfl | hop
  · rfl
  · rcases List.mem_flatten.mp hop with ⟨l, hl, hop⟩
    rcases List.mem_map.mp hl with ⟨c, _, rfl⟩
    rcases List.mem_cons.mp hop with rfl | hop
    · rfl
    · rcases List.mem_cons.mp hop with rfl | hop
      · rfl
      · simp at hop

theorem listOps_reads (store : Store) (n : Int) :
    ∀ op ∈ listOps store n, op.isWrite = false := by
  intro op hop
  unfold listOps at hop
  split at hop
  · simp only [List.mem_singleton] at hop
    subst hop
    rfl
  · split at hop
    · simp only [List.mem_cons, List.mem_singleton] at hop
      rcases hop with rfl | rfl | h
      · rfl
      · rfl
      · simp at h
    · simp only [List.mem_cons, List.mem_singleton] at hop
      rcases hop with rfl | rfl | rfl | h
      · rfl
      · rfl
      · rfl
      · simp at h

theorem searchOps_reads (store : Store) (q : String) (n : Int) :
    ∀ op ∈ searchOps store q n, op.isWrite = false := by
  intro op hop
  unfold searchOps at hop
  split at hop
  · simp only [List.mem_singleton] at hop
    subst hop
    rfl
  · simp only [List.mem_cons, List.mem_singleton] at hop
    rcases hop with rfl | rfl | h
    · rfl
    · rfl
    · simp at h

theorem typesOps_reads (store : Store) :
    ∀ op ∈ typesOps store, op.isWrite = false := by
  intro op hop
  unfold typesOps at hop
  split at hop
  · simp only [List.mem_singleton] at hop
    subst hop
    rfl
  · split at hop
    · simp only [List.mem_cons, List.mem_singleton] at hop
      rcases hop with rfl | rfl | h
      · rfl
      · rfl
      · simp at h
    · simp only [List.mem_cons, List.mem_singleton] at hop
      rcases hop with rfl | rfl | rfl | h
      · rfl
      · rfl
      · rfl
      · simp at h

theorem mainOps_reads (store : Store) (argv : List String) :
    ∀ op ∈ mainOps store argv, op.isWrite = false := by
  intro op hop
  unfold mainOps at hop
  split at hop
  · simp at hop
  · rename_i cmd rest
    by_cases h₁ : cmd = "status"
    · rw [if_pos h₁] at hop
      exact statusOps_reads store op hop
    · rw [if_neg h₁] at hop
      by_cases h₂ : cmd = "list"
      · rw [if_pos h₂] at hop
        rcases rest with _ | ⟨s, rest₂⟩
        · exact listOps_reads store 10 op hop
        · rcases hp : pyInt s with _ | m
          · simp only [hp] at hop
            simp at hop
          · simp only [hp] at hop
            exact listOps_reads store m op hop
      · rw [if_neg h₂] at hop
        by_cases h₃ : cmd = "search"
        · rw [if_pos h₃] at hop
          rcases rest with _ | ⟨q, rest₂⟩
          · simp at hop
          · rcases rest₂ with _ | ⟨s, rest₃⟩
            · exact searchOps_reads store q 10 op hop
            · rcases hp : pyInt s with _ | m
              · simp only [hp] at hop
                simp at hop
              · simp only [hp] at hop
                exact searchOps_reads store q m op hop
        · rw [if_neg h₃] at hop
          by_cases h₄ : cmd = "types"
          · rw [if_pos h₄] at hop
            exact typesOps_reads store op hop
          · rw [if_neg h₄] at hop
            simp at hop

/-- C7: every invocation of the tool is a pure reader — replaying the client
operations any `main` invocation issues leaves the store (its collections and
their documents) exactly as it was. -/
theorem run_preserves_store (store : Store) (argv : List String) :
    applyOps store (mainOps store argv) = store :=
  applyOps_of_reads store _ (mainOps_reads store argv)

/-- C10, witness: the non-numeric count `abc`. -/
theorem bad_count_raises_value_error_witness :
    pyInt "abc" = none ∧
      mainRun [] (fun _ _ => []) ["list", "abc"] = .error .valueError :=
  ⟨by decide,
   (bad_count_raises_value_error [] (fun _ _ => []) "abc" [] "q" (by decide)).1⟩

end ChromaCli
